import Mathlib

/- Verification of `src/scope-resolver.js` (the `ScopeResolver` class of the
pulsar repository). The JavaScript source is embedded shallowly: the mutable
resolver (`this.map`, `this.rangeData`, `this.patternCache`) becomes an
explicit `ResolverState` threaded through the methods, JavaScript `Map`s
become insertion-ordered association lists with the same `get`/`set`
behaviour, exceptions become `Except String`, and the external collaborators
(the buffer and the RegExp engine) are injected functions, exactly as the
class receives `languageLayer.buffer` from outside. -/

set_option maxHeartbeats 1000000

/-! ## Points

`comparePoints` and `isBetweenPoints` from the top of `scope-resolver.js`.
Rows and columns are JavaScript numbers used only through subtraction and
comparison against zero; they are modelled as `Int`. -/

structure Point where
  row : Int
  column : Int
deriving DecidableEq, Repr, Inhabited

/-- JS `comparePoints(a, b)`: row-major comparison; negative, zero or
positive. -/
def comparePoints (a b : Point) : Int :=
  let rows := a.row - b.row
  if rows = 0 then a.column - b.column else rows

/-- JS `isBetweenPoints(point, a, b)`: containment in the closed interval
spanned by `a` and `b` in either order. -/
def isBetweenPoints (point a b : Point) : Bool :=
  let comp := comparePoints a b
  let lesser := if comp > 0 then b else a
  let greater := if comp > 0 then a else b
  decide (comparePoints point lesser ≥ 0) && decide (comparePoints point greater ≤ 0)

/-! ## Syntax nodes

A tree-sitter node is modelled as a finitely branching tree of `NodeInfo`
records (the attributes the resolver reads: positions, indices, `type`,
`text`, and the externally computed `hasError()` flag), together with a path
from the root.  A node's JS `id` — an identity stable across lookups — is
modelled by its path; `parent`, `firstChild`, `lastChild`, `child(i)` and
`childCount` are path navigation. -/

structure NodeInfo where
  startPosition : Point
  endPosition : Point
  startIndex : Int
  endIndex : Int
  type : String
  text : String
  hasError : Bool
deriving DecidableEq, Repr, Inhabited

inductive NodeTree where
  | mk (info : NodeInfo) (children : List NodeTree)

def NodeTree.info : NodeTree → NodeInfo
  | .mk i _ => i

def NodeTree.children : NodeTree → List NodeTree
  | .mk _ cs => cs

/-- Look up the subtree at a path of child indices. -/
def NodeTree.subtree : NodeTree → List Nat → Option NodeTree
  | t, [] => some t
  | t, i :: rest =>
    match t.children[i]? with
    | some c => NodeTree.subtree c rest
    | none => none

/-- A tree-sitter node: a tree plus the path of the node inside it. -/
structure SyntaxNode where
  root : NodeTree
  path : List Nat

def SyntaxNode.get (n : SyntaxNode) : Option NodeTree := n.root.subtree n.path

def SyntaxNode.nodeInfo (n : SyntaxNode) : NodeInfo :=
  (n.get.map NodeTree.info).getD default

def SyntaxNode.startPosition (n : SyntaxNode) : Point := n.nodeInfo.startPosition

def SyntaxNode.endPosition (n : SyntaxNode) : Point := n.nodeInfo.endPosition

def SyntaxNode.startIndex (n : SyntaxNode) : Int := n.nodeInfo.startIndex

def SyntaxNode.endIndex (n : SyntaxNode) : Int := n.nodeInfo.endIndex

def SyntaxNode.type (n : SyntaxNode) : String := n.nodeInfo.type

def SyntaxNode.text (n : SyntaxNode) : String := n.nodeInfo.text

def SyntaxNode.hasError (n : SyntaxNode) : Bool := n.nodeInfo.hasError

/-- JS `node.id`: a stable identity; the path plays that role here. -/
def SyntaxNode.id (n : SyntaxNode) : List Nat := n.path

/-- JS `node.parent`: `null` on the root. -/
def SyntaxNode.parent (n : SyntaxNode) : Option SyntaxNode :=
  if n.path.isEmpty then none else some ⟨n.root, n.path.dropLast⟩

def SyntaxNode.childCount (n : SyntaxNode) : Nat :=
  (n.get.map (fun t => t.children.length)).getD 0

/-- JS `node.child(i)`: `null` when out of range. -/
def SyntaxNode.child (n : SyntaxNode) (i : Nat) : Option SyntaxNode :=
  if i < n.childCount then some ⟨n.root, n.path ++ [i]⟩ else none

def SyntaxNode.firstChild (n : SyntaxNode) : Option SyntaxNode := n.child 0

def SyntaxNode.lastChild (n : SyntaxNode) : Option SyntaxNode :=
  n.child (n.childCount - 1)

/-- The strict ancestors of a node, nearest parent first — the chain the JS
`while (current.parent)` loops walk. -/
def SyntaxNode.strictAncestors (n : SyntaxNode) : List SyntaxNode :=
  (List.range n.path.length).reverse.map (fun k => ⟨n.root, n.path.take k⟩)

/- Number of nodes of a given `type` in a subtree, the node itself
included — the cardinality of JS `node.descendantsOfType(type)`. -/
mutual
def NodeTree.countOfType (ty : String) : NodeTree → Nat
  | .mk info cs => (if info.type = ty then 1 else 0) + countOfTypeList ty cs
def countOfTypeList (ty : String) : List NodeTree → Nat
  | [] => 0
  | c :: rest => NodeTree.countOfType ty c + countOfTypeList ty rest
end

def SyntaxNode.descendantsOfTypeCount (n : SyntaxNode) (ty : String) : Nat :=
  match n.get with
  | some t => t.countOfType ty
  | none => 0

/-! ## Character-level string primitives

The JS string methods the resolver uses (`split`, `includes`, the
single-occurrence `replace`, `trim`, `Number()`) are modelled by structural
recursion over the underlying character lists, so that every definition
evaluates by reduction. -/

/-- Whether `pat` is a prefix of `l`. -/
def charsStartWith : List Char → List Char → Bool
  | _, [] => true
  | [], _ :: _ => false
  | c :: cs, p :: ps => c = p && charsStartWith cs ps

/-- Split around the first occurrence of `pat` (assumed non-empty): the
characters before the match and the characters after it. -/
def splitFirst (pat : List Char) : List Char → Option (List Char × List Char)
  | [] => none
  | c :: cs =>
    if charsStartWith (c :: cs) pat then some ([], (c :: cs).drop pat.length)
    else
      match splitFirst pat cs with
      | some (pre, post) => some (c :: pre, post)
      | none => none

/-- JS `s.split('.')` for the dotted descriptors. -/
def splitOnDot : List Char → List (List Char)
  | [] => [[]]
  | c :: cs =>
    let rest := splitOnDot cs
    if c = '.' then [] :: rest
    else
      match rest with
      | [] => [[c]]
      | r :: rs => (c :: r) :: rs

/-- JS `s.trim()`. -/
def charsTrim (l : List Char) : List Char :=
  ((l.dropWhile Char.isWhitespace).reverse.dropWhile Char.isWhitespace).reverse

/-- Decimal digit accumulation; `none` on the first non-digit. -/
def charsToNat (acc : Nat) : List Char → Option Nat
  | [] => some acc
  | c :: cs =>
    if c.isDigit then charsToNat (acc * 10 + (c.toNat - 48)) cs else none

/-- Parse an optionally negated decimal integer; `none` is JS `NaN`. -/
def parseIntChars : List Char → Option Int
  | [] => none
  | '-' :: cs =>
    match cs with
    | [] => none
    | _ :: _ => (charsToNat 0 cs).map (fun n => -(n : Int))
  | cs => (charsToNat 0 cs).map (fun n => (n : Int))

/-! ## Dynamic property access

`resolveNodeDescriptor` and `resolveNodePosition` look up properties of a
node by string name (`result[part]`).  `JSVal` is the universe of values such
an access can produce; `null` also stands for JS `undefined` (the two are
interchangeable for every use the resolver makes: truthiness, and throwing
on property access). -/

inductive JSVal where
  | node (n : SyntaxNode)
  | point (p : Point)
  | int (i : Int)
  | str (s : String)
  | null

/-- JS truthiness of a `JSVal`. -/
def JSVal.truthy : JSVal → Bool
  | .node _ => true
  | .point _ => true
  | .int i => i != 0
  | .str s => s != ""
  | .null => false

/-- Property lookup on a node by name; unknown names give `undefined`. -/
def SyntaxNode.prop (n : SyntaxNode) (name : String) : JSVal :=
  if name = "startPosition" then .point n.startPosition
  else if name = "endPosition" then .point n.endPosition
  else if name = "startIndex" then .int n.startIndex
  else if name = "endIndex" then .int n.endIndex
  else if name = "type" then .str n.type
  else if name = "text" then .str n.text
  else if name = "childCount" then .int n.childCount
  else if name = "parent" then
    match n.parent with | some p => .node p | none => .null
  else if name = "firstChild" then
    match n.firstChild with | some c => .node c | none => .null
  else if name = "lastChild" then
    match n.lastChild with | some c => .node c | none => .null
  else .null

/-- Property lookup on an arbitrary value.  Points expose `row` and
`column`; property access on numbers and strings yields `undefined` (JS
boxes them), and on `null`/`undefined` it throws — callers handle that
case explicitly before using this function. -/
def JSVal.prop (v : JSVal) (name : String) : JSVal :=
  match v with
  | .node n => n.prop name
  | .point p =>
    if name = "row" then .int p.row
    else if name = "column" then .int p.column
    else .null
  | _ => .null

/-- JS `resolveNodeDescriptor(node, descriptor)`: walk a dotted path of
property names; return `null` as soon as a step is falsy. -/
def resolveDescriptorParts : JSVal → List String → JSVal
  | result, [] => result
  | result, part :: rest =>
    let v := result.prop part
    if v.truthy then resolveDescriptorParts v rest else JSVal.null

def resolveNodeDescriptor (node : SyntaxNode) (descriptor : String) : JSVal :=
  resolveDescriptorParts (.node node)
    ((splitOnDot descriptor.data).map (fun cs => String.mk cs))

/-- JS `resolveNodePosition(node, descriptor)`: resolve all but the last
part, then read the last property off the result.  When the prefix resolves
to `null`, the JS `result[lastPart]` access throws a `TypeError`.  (The JS
rejoins the leading parts with dots and re-splits them inside
`resolveNodeDescriptor`; since no part contains a dot, that round trip is
walking the leading parts directly.) -/
def resolveNodePosition (node : SyntaxNode) (descriptor : String) :
    Except String JSVal :=
  let parts := (splitOnDot descriptor.data).map (fun cs => String.mk cs)
  let lastPart := (parts.getLast?).getD ""
  let front := parts.dropLast
  let result :=
    if front.length = 0 then JSVal.node node
    else resolveDescriptorParts (.node node) front
  match result with
  | .null => .error "TypeError: cannot read properties of null"
  | v => .ok (v.prop lastPart)

/-! ## Strings and directive properties

`setProperties` is an insertion-ordered string-to-string mapping; it is
modelled as a list of pairs iterated in order (`for key in props`).  The
string helpers model the JS methods the resolver uses: `includes`,
single-occurrence `replace`, and `Number()` coercion. -/

abbrev Props := List (String × String)

def Props.get (props : Props) (k : String) : Option String :=
  (props.find? (fun kv => kv.1 = k)).map (fun kv => kv.2)

def Props.hasKey (props : Props) (k : String) : Bool :=
  props.any (fun kv => kv.1 = k)

/-- JS truthiness of a possibly-absent string property: `undefined` and the
empty string are falsy, every other string is truthy. -/
def jsTruthy : Option String → Bool
  | none => false
  | some s => s != ""

/-- JS `s.includes(pat)`. -/
def strIncludes (s pat : String) : Bool :=
  pat.data.isEmpty || (splitFirst pat.data s.data).isSome

/-- The GetSubstitution step of JS `String.prototype.replace`, for a string
pattern: in the replacement, `$$` yields `$`, `$&` the matched text, a `$`
followed by a backquote the text before the match, `$'` the text after the
match; any other `$` (including `$n`, which would name a capture group a
string pattern does not have) stays literal and scanning continues after
the dollar.  The backquote and quote characters are written as `Char.ofNat
96` and `Char.ofNat 39`. -/
def getSubstitution (matched before after : List Char) : List Char → List Char
  | [] => []
  | c :: rest =>
    if c = '$' then
      match rest with
      | [] => ['$']
      | d :: rest' =>
        if d = '$' then '$' :: getSubstitution matched before after rest'
        else if d = '&' then matched ++ getSubstitution matched before after rest'
        else if d = Char.ofNat 96 then before ++ getSubstitution matched before after rest'
        else if d = Char.ofNat 39 then after ++ getSubstitution matched before after rest'
        else '$' :: getSubstitution matched before after (d :: rest')
    else c :: getSubstitution matched before after rest

/-- JS `s.replace(pat, rep)` with a string pattern: replaces only the first
occurrence, applying GetSubstitution to the replacement — so `$` escape
sequences in `rep` are expanded against the match. -/
def replaceFirst (s pat rep : String) : String :=
  if pat.data.isEmpty then
    String.mk (getSubstitution [] [] s.data rep.data ++ s.data)
  else
    match splitFirst pat.data s.data with
    | none => s
    | some (pre, post) =>
      String.mk (pre ++ getSubstitution pat.data pre post rep.data ++ post)

/-- JS `Number(value)` on the integer-literal strings that `offsetStart` /
`offsetEnd` take; non-numeric strings give `NaN`, modelled as `none`, and
the empty (all-whitespace) string coerces to `0`. -/
def jsNumber (s : String) : Option Int :=
  let t := charsTrim s.data
  if t.isEmpty then some 0 else parseIntChars t

/-! ## The resolver

`ResolverConfig` holds what the constructor stores and never mutates: the
language layer (with its buffer), the injected `idForScope` (defaulting to
the identity), and the host RegExp engine, injected as a function from a
pattern source and a subject string to the first match's index and length.
`ResolverState` holds the three mutable maps. -/

structure Buffer where
  positionForCharacterIndex : Int → Point
  characterIndexForPosition : Point → Int
  clipPosition : Point → Point
  lineForRow : Int → String

structure LanguageLayer where
  buffer : Buffer
  depth : Nat

/-- JS `new RegExp(pattern)`: an opaque compiled object remembering its
source; matching is delegated to the injected engine. -/
structure CompiledRegex where
  source : String
deriving DecidableEq, Repr

structure ResolverConfig where
  languageLayer : LanguageLayer
  idForScope : String → String
  regexMatch : String → String → Option (Nat × Nat)

/-- Bundle of scope ids opening and closing at one position: the JS object
with an `open` list and a `close` list (fields renamed because `open` is a
Lean keyword). -/
structure Bundle where
  openScopes : List String
  closeScopes : List String
deriving DecidableEq, Repr

/-- Insertion-ordered association list lookup — JS `Map.prototype.get`. -/
def assocGet {κ α : Type} [DecidableEq κ] : List (κ × α) → κ → Option α
  | [], _ => none
  | (k', v') :: rest, k => if k' = k then some v' else assocGet rest k

/-- Insertion-ordered association list update — JS `Map.prototype.set`:
an existing key keeps its position, a new key is appended. -/
def assocSet {κ α : Type} [DecidableEq κ] : List (κ × α) → κ → α → List (κ × α)
  | [], k, v => [(k, v)]
  | (k', v') :: rest, k, v =>
    if k' = k then (k, v) :: rest else (k', v') :: assocSet rest k v

/-- The three mutable maps of a `ScopeResolver`.  The JS code keys `map` by
the string `row,column` and `rangeData` by the string
`startIndex/endIndex`; on integer coordinates those string keys are in
bijection with the underlying pairs, which are used as keys directly. -/
structure ResolverState where
  map : List (Point × Bundle)
  rangeData : List ((Int × Int) × Props)
  patternCache : List (String × CompiledRegex)
deriving DecidableEq, Repr

/-- A query capture: node, scope name, directive properties. -/
structure Capture where
  node : SyntaxNode
  name : String
  setProperties : Props

/-- The resolved range of a capture: the four fields the resolver reads off
either a node or a synthesized range object. -/
structure CRange where
  startPosition : Point
  endPosition : Point
  startIndex : Int
  endIndex : Int
deriving DecidableEq, Repr

/-- The range fulfilled by a node itself (`return capture.node`): the same
four fields. -/
def rangeOfNode (n : SyntaxNode) : CRange :=
  ⟨n.startPosition, n.endPosition, n.startIndex, n.endIndex⟩

namespace ScopeResolver

/-- JS `getOrCompilePattern(pattern)`: memoized `new RegExp(pattern)`. -/
def getOrCompilePattern (st : ResolverState) (pattern : String) :
    CompiledRegex × ResolverState :=
  match assocGet st.patternCache pattern with
  | some regex => (regex, st)
  | none =>
    let regex : CompiledRegex := ⟨pattern⟩
    (regex, { st with patternCache := assocSet st.patternCache pattern regex })

def indexToPosition (cfg : ResolverConfig) (index : Int) : Point :=
  cfg.languageLayer.buffer.positionForCharacterIndex index

def positionToIndex (cfg : ResolverConfig) (position : Point) : Int :=
  cfg.languageLayer.buffer.characterIndexForPosition position

def adjustPositionByOffset (cfg : ResolverConfig) (position : Point) (offset : Int) : Point :=
  let index := positionToIndex cfg position + offset
  cfg.languageLayer.buffer.clipPosition (indexToPosition cfg index)

/-- JS `setDataForRange(range, props)`: record `props` under the range's
`startIndex/endIndex` key. -/
def setDataForRange (st : ResolverState) (range : CRange) (props : Props) :
    ResolverState :=
  { st with rangeData := assocSet st.rangeData (range.startIndex, range.endIndex) props }

/-- JS `getDataForRange(syntax)`: exact-key lookup. -/
def getDataForRange (st : ResolverState) (range : CRange) : Option Props :=
  assocGet st.rangeData (range.startIndex, range.endIndex)

/-- JS `isValidRange(range)`.  The JS guards `typeof startIndex ===
'number'` (and the object checks on the positions) are vacuous on this
typed range representation, where all four fields are always present and
numeric. -/
def isValidRange (range : CRange) : Bool :=
  if range.startIndex > range.endIndex then false
  else if comparePoints range.startPosition range.endPosition ≥ 0 then false
  else true

/-- JS `ScopeResolver.interpolateName(name, node)`: substitute `_TEXT_`
(only when the node's text has no space) and `_TYPE_`. -/
def interpolateName (name : String) (node : SyntaxNode) : String :=
  let name :=
    if strIncludes name "_TEXT_" && !(strIncludes node.text " ") then
      replaceFirst name "_TEXT_" node.text
    else name
  replaceFirst name "_TYPE_" node.type

end ScopeResolver

/-! ## The inclusion tests (`ScopeResolver.TESTS`)

Each test receives the node, the directive's value, the full property set,
the existing metadata for the resolved range, and the resolver.  Tests whose
JS bodies can throw (`onlyIfOnSameRowAs` and its negation, via a property
access on `null`) return in `Except`; the others always succeed. -/

def TestFn : Type :=
  ResolverConfig → ResolverState → SyntaxNode → String → Props → Option Props →
    Except String Bool

namespace Tests

/-- The scan of `onlyIfFirstOfType`: walk the parent's children from the
front; seeing the node first passes, seeing its type first fails. -/
def scanOfType (ppath npath : List Nat) (ty : String) : Nat → List NodeTree → Bool
  | _, [] => false
  | i, c :: rest =>
    if ppath ++ [i] = npath then true
    else if c.info.type = ty then false
    else scanOfType ppath npath ty (i + 1) rest

/-- The scan of `onlyIfLastOfType`: the same walk over the reversed child
list with descending indices (the JS loop falls through to `undefined`,
which the caller treats as `false`). -/
def scanOfTypeRev (ppath npath : List Nat) (ty : String) : Nat → List NodeTree → Bool
  | _, [] => false
  | i, c :: rest =>
    if ppath ++ [i] = npath then true
    else if c.info.type = ty then false
    else scanOfTypeRev ppath npath ty (i - 1) rest

def final : TestFn := fun _ _ _ _ _ existingData =>
  .ok (!(existingData.isSome && jsTruthy (existingData.bind (fun d => Props.get d "final"))))

def shy : TestFn := fun _ _ _ _ _ existingData =>
  .ok existingData.isNone

def onlyIfError : TestFn := fun _ _ node _ _ _ =>
  .ok (node.type = "ERROR")

def onlyIfHasError : TestFn := fun _ _ node _ _ _ =>
  .ok node.hasError

def onlyIfInjection : TestFn := fun cfg _ _ _ _ _ =>
  .ok (cfg.languageLayer.depth > 0)

def onlyIfRoot : TestFn := fun _ _ node _ _ _ =>
  .ok node.parent.isNone

def onlyIfFirst : TestFn := fun _ _ node _ _ _ =>
  .ok (match node.parent with
    | none => true
    | some p =>
      match p.firstChild with
      | none => false
      | some fc => fc.id = node.id)

def onlyIfNotFirst : TestFn := fun _ _ node _ _ _ =>
  .ok (match node.parent with
    | none => false
    | some p =>
      match p.firstChild with
      | none => true
      | some fc => fc.id ≠ node.id)

def onlyIfLast : TestFn := fun _ _ node _ _ _ =>
  .ok (match node.parent with
    | none => true
    | some p =>
      match p.lastChild with
      | none => false
      | some lc => lc.id = node.id)

def onlyIfNotLast : TestFn := fun _ _ node _ _ _ =>
  .ok (match node.parent with
    | none => false
    | some p =>
      match p.lastChild with
      | none => true
      | some lc => lc.id ≠ node.id)

def onlyIfFirstOfType : TestFn := fun _ _ node _ _ _ =>
  .ok (match node.parent with
    | none => true
    | some p =>
      match p.get with
      | none => false
      | some pt => scanOfType p.path node.path node.type 0 pt.children)

def onlyIfLastOfType : TestFn := fun _ _ node _ _ _ =>
  .ok (match node.parent with
    | none => true
    | some p =>
      match p.get with
      | none => false
      | some pt =>
        scanOfTypeRev p.path node.path node.type (pt.children.length - 1)
          pt.children.reverse)

/-- The row check shared by `onlyIfLastTextOnRow` and its negation: no
non-whitespace after the node's end column on its end row (JS
`!/\S/.test(textAfterNode)`; `slice` on a nonnegative column is `drop`). -/
def lastTextOnRow (cfg : ResolverConfig) (node : SyntaxNode) : Bool :=
  let text := cfg.languageLayer.buffer.lineForRow node.endPosition.row
  let textAfterNode := text.drop node.endPosition.column.toNat
  !(textAfterNode.any (fun ch => !ch.isWhitespace))

def onlyIfLastTextOnRow : TestFn := fun cfg _ node _ _ _ =>
  .ok (lastTextOnRow cfg node)

def onlyIfNotLastTextOnRow : TestFn := fun cfg _ node _ _ _ =>
  .ok (!(lastTextOnRow cfg node))

/-- The ancestor walk shared by `onlyIfDescendantOfType` and its negation. -/
def isDescendantOfType (node : SyntaxNode) (ty : String) : Bool :=
  node.strictAncestors.any (fun a => a.type = ty)

def onlyIfDescendantOfType : TestFn := fun _ _ node value _ _ =>
  .ok (isDescendantOfType node value)

def onlyIfNotDescendantOfType : TestFn := fun _ _ node value _ _ =>
  .ok (!(isDescendantOfType node value))

def onlyIfAncestorOfType : TestFn := fun _ _ node value _ _ =>
  .ok (node.descendantsOfTypeCount value > 0)

def onlyIfNotAncestorOfType : TestFn := fun _ _ node value _ _ =>
  .ok (node.descendantsOfTypeCount value = 0)

/-- The ancestor walk shared by `onlyIfDescendantOfNodeWithData` and its
negation: some ancestor's recorded range metadata contains the key (JS
`key in data`). -/
def isDescendantOfNodeWithData (st : ResolverState) (node : SyntaxNode)
    (key : String) : Bool :=
  node.strictAncestors.any (fun a =>
    match ScopeResolver.getDataForRange st (rangeOfNode a) with
    | none => false
    | some data => data.hasKey key)

def onlyIfDescendantOfNodeWithData : TestFn := fun _ st node value _ _ =>
  .ok (isDescendantOfNodeWithData st node value)

def onlyIfNotDescendantOfNodeWithData : TestFn := fun _ st node value _ _ =>
  .ok (!(isDescendantOfNodeWithData st node value))

/-- The row comparison shared by `onlyIfOnSameRowAs` and its negation:
`resolveNodePosition(node, descriptor).row === node.startPosition.row`.
A `null` result makes the `.row` access throw; a non-point result compares
an undefined `row` against a number, which is simply unequal. -/
def onSameRowAs (node : SyntaxNode) (descriptor : String) : Except String Bool := do
  let v ← resolveNodePosition node descriptor
  match v with
  | .point p => pure (p.row = node.startPosition.row)
  | .null => throw "TypeError: cannot read properties of undefined"
  | _ => pure false

def onlyIfOnSameRowAs : TestFn := fun _ _ node value _ _ =>
  onSameRowAs node value

def onlyIfNotOnSameRowAs : TestFn := fun _ _ node value _ _ => do
  let b ← onSameRowAs node value
  pure (!b)

end Tests

/-- The `ScopeResolver.TESTS` dispatch table: `TESTS key` is `some` exactly
when `key in ScopeResolver.TESTS` holds in the JS source. -/
def TESTS (key : String) : Option TestFn :=
  if key = "final" then some Tests.final
  else if key = "shy" then some Tests.shy
  else if key = "onlyIfError" then some Tests.onlyIfError
  else if key = "onlyIfHasError" then some Tests.onlyIfHasError
  else if key = "onlyIfInjection" then some Tests.onlyIfInjection
  else if key = "onlyIfRoot" then some Tests.onlyIfRoot
  else if key = "onlyIfFirst" then some Tests.onlyIfFirst
  else if key = "onlyIfNotFirst" then some Tests.onlyIfNotFirst
  else if key = "onlyIfLast" then some Tests.onlyIfLast
  else if key = "onlyIfNotLast" then some Tests.onlyIfNotLast
  else if key = "onlyIfFirstOfType" then some Tests.onlyIfFirstOfType
  else if key = "onlyIfLastOfType" then some Tests.onlyIfLastOfType
  else if key = "onlyIfLastTextOnRow" then some Tests.onlyIfLastTextOnRow
  else if key = "onlyIfNotLastTextOnRow" then some Tests.onlyIfNotLastTextOnRow
  else if key = "onlyIfDescendantOfType" then some Tests.onlyIfDescendantOfType
  else if key = "onlyIfNotDescendantOfType" then some Tests.onlyIfNotDescendantOfType
  else if key = "onlyIfAncestorOfType" then some Tests.onlyIfAncestorOfType
  else if key = "onlyIfNotAncestorOfType" then some Tests.onlyIfNotAncestorOfType
  else if key = "onlyIfDescendantOfNodeWithData" then some Tests.onlyIfDescendantOfNodeWithData
  else if key = "onlyIfNotDescendantOfNodeWithData" then some Tests.onlyIfNotDescendantOfNodeWithData
  else if key = "onlyIfOnSameRowAs" then some Tests.onlyIfOnSameRowAs
  else if key = "onlyIfNotOnSameRowAs" then some Tests.onlyIfNotOnSameRowAs
  else none

/-! ## The range adjustments (`ScopeResolver.ADJUSTMENTS`)

Each adjustment receives the capture's node, the directive's value, the full
property set, the range so far, and the resolver; it returns the transformed
range, or `none` for "drop this capture", or throws for the fatal
extent violations. -/

def AdjFn : Type :=
  ResolverConfig → SyntaxNode → String → Props → CRange → ResolverState →
    Except String (Option CRange × ResolverState)

/-- The error thrown by the position-based adjustments on an extent
violation. -/
def extentError : String := "Cannot extend past original range of capture"

namespace Adjustments

/-- JS `startAt`.  A resolved value that is not a point makes the JS
`comparePoints` arithmetic produce `NaN`, whose comparisons are all false,
so `isBetweenPoints` fails and the extent error is thrown; a `null` result
throws on the `.row` access inside `comparePoints`. -/
def startAt : AdjFn := fun cfg node value _ range st =>
  match resolveNodePosition node value with
  | .error e => .error e
  | .ok (.point start) =>
    if !isBetweenPoints start node.startPosition node.endPosition then
      .error extentError
    else
      .ok (some { range with
                  startPosition := start,
                  startIndex := ScopeResolver.positionToIndex cfg start }, st)
  | .ok .null => .error "TypeError: cannot read properties of undefined"
  | .ok _ => .error extentError

/-- JS `endAt`; same conventions as `startAt`. -/
def endAt : AdjFn := fun cfg node value _ range st =>
  match resolveNodePosition node value with
  | .error e => .error e
  | .ok (.point endPos) =>
    if !isBetweenPoints endPos node.startPosition node.endPosition then
      .error extentError
    else
      .ok (some { range with
                  endPosition := endPos,
                  endIndex := ScopeResolver.positionToIndex cfg endPos }, st)
  | .ok .null => .error "TypeError: cannot read properties of undefined"
  | .ok _ => .error extentError

/-- JS `offsetStart`: non-numeric offsets drop the capture (`null`), an
offset landing outside the node's extent throws. -/
def offsetStart : AdjFn := fun cfg node value _ range st =>
  match jsNumber value with
  | none => .ok (none, st)
  | some offset =>
    let offsetPosition :=
      ScopeResolver.adjustPositionByOffset cfg range.startPosition offset
    let offsetIndex := ScopeResolver.positionToIndex cfg offsetPosition
    if !isBetweenPoints offsetPosition node.startPosition node.endPosition then
      .error extentError
    else
      .ok (some { range with
                  startPosition := offsetPosition,
                  startIndex := offsetIndex }, st)

/-- JS `offsetEnd`; same conventions as `offsetStart`. -/
def offsetEnd : AdjFn := fun cfg node value _ range st =>
  match jsNumber value with
  | none => .ok (none, st)
  | some offset =>
    let offsetPosition :=
      ScopeResolver.adjustPositionByOffset cfg range.endPosition offset
    let offsetIndex := ScopeResolver.positionToIndex cfg offsetPosition
    if !isBetweenPoints offsetPosition node.startPosition node.endPosition then
      .error extentError
    else
      .ok (some { range with
                  endPosition := offsetPosition,
                  endIndex := offsetIndex }, st)

/-- JS `startAndEndAroundFirstMatchOf`: no match drops the capture. -/
def startAndEndAroundFirstMatchOf : AdjFn := fun cfg node value _ position st =>
  let (regex, st1) := ScopeResolver.getOrCompilePattern st value
  match cfg.regexMatch regex.source node.text with
  | none => .ok (none, st1)
  | some (idx, len) =>
    let oldStartPosition := node.startPosition
    let startOffset : Int := idx
    let endOffset : Int := idx + len
    let sp := ScopeResolver.adjustPositionByOffset cfg oldStartPosition startOffset
    let ep := ScopeResolver.adjustPositionByOffset cfg oldStartPosition endOffset
    .ok (some { position with
                startPosition := sp,
                endPosition := ep,
                startIndex := ScopeResolver.positionToIndex cfg sp,
                endIndex := ScopeResolver.positionToIndex cfg ep }, st1)

/-- JS `startBeforeFirstMatchOf`. -/
def startBeforeFirstMatchOf : AdjFn := fun cfg node value _ position st =>
  let (regex, st1) := ScopeResolver.getOrCompilePattern st value
  match cfg.regexMatch regex.source node.text with
  | none => .ok (none, st1)
  | some (idx, _) =>
    let oldStartPosition := node.startPosition
    let startOffset : Int := idx
    let sp := ScopeResolver.adjustPositionByOffset cfg oldStartPosition startOffset
    .ok (some { position with
                startPosition := sp,
                startIndex := ScopeResolver.positionToIndex cfg sp }, st1)

/-- JS `startAfterFirstMatchOf`. -/
def startAfterFirstMatchOf : AdjFn := fun cfg node value _ position st =>
  let (regex, st1) := ScopeResolver.getOrCompilePattern st value
  match cfg.regexMatch regex.source node.text with
  | none => .ok (none, st1)
  | some (idx, len) =>
    let oldStartPosition := node.startPosition
    let startOffset : Int := idx + len
    let sp := ScopeResolver.adjustPositionByOffset cfg oldStartPosition startOffset
    .ok (some { position with
                startPosition := sp,
                startIndex := ScopeResolver.positionToIndex cfg sp }, st1)

/-- JS `endBeforeFirstMatchOf`. -/
def endBeforeFirstMatchOf : AdjFn := fun cfg node value _ position st =>
  let (regex, st1) := ScopeResolver.getOrCompilePattern st value
  match cfg.regexMatch regex.source node.text with
  | none => .ok (none, st1)
  | some (idx, _) =>
    let oldStartPosition := node.startPosition
    let endOffset : Int := idx
    let ep := ScopeResolver.adjustPositionByOffset cfg oldStartPosition endOffset
    .ok (some { position with
                endPosition := ep,
                endIndex := ScopeResolver.positionToIndex cfg ep }, st1)

/-- JS `endAfterFirstMatchOf`. -/
def endAfterFirstMatchOf : AdjFn := fun cfg node value _ position st =>
  let (regex, st1) := ScopeResolver.getOrCompilePattern st value
  match cfg.regexMatch regex.source node.text with
  | none => .ok (none, st1)
  | some (idx, len) =>
    let oldStartPosition := node.startPosition
    let endOffset : Int := idx + len
    let ep := ScopeResolver.adjustPositionByOffset cfg oldStartPosition endOffset
    .ok (some { position with
                endPosition := ep,
                endIndex := ScopeResolver.positionToIndex cfg ep }, st1)

end Adjustments

/-- The `ScopeResolver.ADJUSTMENTS` dispatch table: `ADJUSTMENTS key` is
`some` exactly when `key in ScopeResolver.ADJUSTMENTS` holds in the JS
source. -/
def ADJUSTMENTS (key : String) : Option AdjFn :=
  if key = "startAt" then some Adjustments.startAt
  else if key = "endAt" then some Adjustments.endAt
  else if key = "offsetStart" then some Adjustments.offsetStart
  else if key = "offsetEnd" then some Adjustments.offsetEnd
  else if key = "startAndEndAroundFirstMatchOf" then
    some Adjustments.startAndEndAroundFirstMatchOf
  else if key = "startBeforeFirstMatchOf" then some Adjustments.startBeforeFirstMatchOf
  else if key = "startAfterFirstMatchOf" then some Adjustments.startAfterFirstMatchOf
  else if key = "endBeforeFirstMatchOf" then some Adjustments.endBeforeFirstMatchOf
  else if key = "endAfterFirstMatchOf" then some Adjustments.endAfterFirstMatchOf
  else none

/-! ## The orchestrator -/

namespace ScopeResolver

/-- JS `adjustsCaptureRange(capture)`: some property key is a recognized
adjustment. -/
def adjustsCaptureRange (capture : Capture) : Bool :=
  let keys := capture.setProperties.map (fun kv => kv.1)
  if keys.length = 0 then false
  else keys.any (fun k => (ADJUSTMENTS k).isSome)

/-- The `for key in props` loop of `determineCaptureRange`: apply each
recognized adjustment to the range so far; a `null` result aborts (the
pattern-cache effects made so far persist, as they do on `this` in JS). -/
def applyAdjustments (cfg : ResolverConfig) (node : SyntaxNode) (props : Props) :
    List (String × String) → CRange → ResolverState →
      Except String (Option CRange × ResolverState)
  | [], range, st => .ok (some range, st)
  | (key, value) :: rest, range, st =>
    match ADJUSTMENTS key with
    | none => applyAdjustments cfg node props rest range st
    | some adj =>
      match adj cfg node value props range st with
      | .error e => .error e
      | .ok (none, st') => .ok (none, st')
      | .ok (some range', st') => applyAdjustments cfg node props rest range' st'

/-- JS `determineCaptureRange(capture)`: without a recognized adjustment the
node itself is the range; otherwise the node's extent is transformed by the
adjustments in property order and then validated. -/
def determineCaptureRange (cfg : ResolverConfig) (st : ResolverState)
    (capture : Capture) : Except String (Option CRange × ResolverState) :=
  if !adjustsCaptureRange capture then .ok (some (rangeOfNode capture.node), st)
  else
    let range : CRange :=
      { startPosition := capture.node.startPosition,
        startIndex := capture.node.startIndex,
        endPosition := capture.node.endPosition,
        endIndex := capture.node.endIndex }
    match applyAdjustments cfg capture.node capture.setProperties
        capture.setProperties range st with
    | .error e => .error e
    | .ok (none, st') => .ok (none, st')
    | .ok (some range', st') =>
      if !isValidRange range' then .ok (none, st') else .ok (some range', st')

/-- The `for key in props` loop of `test`: run every recognized test,
stopping at the first failure. -/
def runTests (cfg : ResolverConfig) (st : ResolverState) (node : SyntaxNode)
    (props : Props) (existingData : Option Props) :
    List (String × String) → Except String Bool
  | [] => .ok true
  | (key, value) :: rest =>
    match TESTS key with
    | none => runTests cfg st node props existingData rest
    | some t =>
      match t cfg st node value props existingData with
      | .error e => .error e
      | .ok false => .ok false
      | .ok true => runTests cfg st node props existingData rest

/-- JS `test(existingData, props, node)`: existing `final` metadata for the
range short-circuits everything; otherwise all recognized tests must
pass. -/
def test (cfg : ResolverConfig) (st : ResolverState) (existingData : Option Props)
    (props : Props) (node : SyntaxNode) : Except String Bool :=
  if jsTruthy (existingData.bind (fun d => Props.get d "final")) then .ok false
  else runTests cfg st node props existingData props

/-- JS `setBoundary(point, id, which, options)`: create the bundle on first
use, then append/prepend according to `which` and the `root` override. -/
def setBoundary (st : ResolverState) (point : Point) (id : String)
    (which : String) (root : Bool) : ResolverState :=
  let bundle := (assocGet st.map point).getD ⟨[], []⟩
  let bundle' :=
    if which = "open" then
      if root then { bundle with openScopes := id :: bundle.openScopes }
      else { bundle with openScopes := bundle.openScopes ++ [id] }
    else
      if root then { bundle with closeScopes := bundle.closeScopes ++ [id] }
      else { bundle with closeScopes := id :: bundle.closeScopes }
  { st with map := assocSet st.map point bundle' }

/-- JS `store(syntax)`: the orchestrator.  `Except.error` is a propagated
adjustment/test exception; `.ok none` is the JS `false` return; `.ok (some
range)` is a successful store returning the computed range. -/
def store (cfg : ResolverConfig) (st : ResolverState) (capture : Capture) :
    Except String (Option CRange × ResolverState) :=
  let node := capture.node
  let props := capture.setProperties
  let name := interpolateName capture.name node
  match determineCaptureRange cfg st capture with
  | .error e => .error e
  | .ok (none, st1) => .ok (none, st1)
  | .ok (some range, st1) =>
    let data := getDataForRange st1 range
    match test cfg st1 data props node with
    | .error e => .error e
    | .ok false => .ok (none, st1)
    | .ok true =>
      let st2 := setDataForRange st1 range props
      if name = "_IGNORE_" then .ok (none, st2)
      else
        let id := cfg.idForScope name
        let st3 := setBoundary st2 range.startPosition id "open" false
        let st4 := setBoundary st3 range.endPosition id "close" false
        .ok (some range, st4)

/-- JS `reset()`: clear the boundary map and the range metadata; the
pattern cache stays. -/
def reset (st : ResolverState) : ResolverState :=
  { st with map := [], rangeData := [] }

/-- The `open` list of the boundary bundle recorded at a position (empty
when no bundle exists there). -/
def opensAt (st : ResolverState) (point : Point) : List String :=
  ((assocGet st.map point).getD ⟨[], []⟩).openScopes

/-- The `close` list of the boundary bundle recorded at a position. -/
def closesAt (st : ResolverState) (point : Point) : List String :=
  ((assocGet st.map point).getD ⟨[], []⟩).closeScopes

end ScopeResolver

/-! ## Basic lemmas about the association-list maps -/

theorem assocGet_assocSet {κ α : Type} [DecidableEq κ] (m : List (κ × α))
    (k k' : κ) (v : α) :
    assocGet (assocSet m k v) k' = if k' = k then some v else assocGet m k' := by
  induction m with
  | nil =>
    rcases eq_or_ne k' k with h | h
    · simp [assocSet, assocGet, h]
    · simp [assocSet, assocGet, h, Ne.symm h]
  | cons hd tl ih =>
    obtain ⟨k₀, v₀⟩ := hd
    rcases eq_or_ne k₀ k with h₀ | h₀
    · subst h₀
      rcases eq_or_ne k' k₀ with h | h
      · subst h
        simp [assocSet, assocGet]
      · simp [assocSet, assocGet, h, Ne.symm h]
    · rcases eq_or_ne k₀ k' with h | h
      · subst h
        simp [assocSet, assocGet, h₀, Ne.symm h₀, ih]
      · rcases eq_or_ne k' k with h' | h'
        · subst h'
          simp [assocSet, assocGet, h₀, h, ih, Ne.symm h]
        · simp [assocSet, assocGet, h₀, h, h', ih, Ne.symm h]

theorem assocGet_assocSet_self {κ α : Type} [DecidableEq κ] (m : List (κ × α))
    (k : κ) (v : α) : assocGet (assocSet m k v) k = some v := by
  simp [assocGet_assocSet]

theorem assocGet_assocSet_ne {κ α : Type} [DecidableEq κ] (m : List (κ × α))
    (k k' : κ) (v : α) (h : k' ≠ k) :
    assocGet (assocSet m k v) k' = assocGet m k' := by
  simp [assocGet_assocSet, h]

/-! ## State-preservation lemmas

`getOrCompilePattern` touches only the pattern cache, and every adjustment
touches the state only through it, so the whole range-resolution pipeline
leaves the boundary map and the range metadata untouched. -/

namespace ScopeResolver

theorem getOrCompilePattern_map (st : ResolverState) (p : String) :
    ((getOrCompilePattern st p).2).map = st.map := by
  unfold getOrCompilePattern
  split <;> rfl

theorem getOrCompilePattern_rangeData (st : ResolverState) (p : String) :
    ((getOrCompilePattern st p).2).rangeData = st.rangeData := by
  unfold getOrCompilePattern
  split <;> rfl

end ScopeResolver

theorem state_of_startAt (cfg : ResolverConfig) (node : SyntaxNode)
    (value : String) (props : Props) (range : CRange) (st : ResolverState)
    (r? : Option CRange) (st' : ResolverState)
    (h : Adjustments.startAt cfg node value props range st = .ok (r?, st')) :
    st' = st := by
  unfold Adjustments.startAt at h
  split at h <;> first
    | exact Except.noConfusion h
    | (split at h
       · exact Except.noConfusion h
       · simp only [Except.ok.injEq, Prod.mk.injEq] at h
         exact h.2.symm)

theorem state_of_endAt (cfg : ResolverConfig) (node : SyntaxNode)
    (value : String) (props : Props) (range : CRange) (st : ResolverState)
    (r? : Option CRange) (st' : ResolverState)
    (h : Adjustments.endAt cfg node value props range st = .ok (r?, st')) :
    st' = st := by
  unfold Adjustments.endAt at h
  split at h <;> first
    | exact Except.noConfusion h
    | (split at h
       · exact Except.noConfusion h
       · simp only [Except.ok.injEq, Prod.mk.injEq] at h
         exact h.2.symm)

theorem state_of_offsetStart (cfg : ResolverConfig) (node : SyntaxNode)
    (value : String) (props : Props) (range : CRange) (st : ResolverState)
    (r? : Option CRange) (st' : ResolverState)
    (h : Adjustments.offsetStart cfg node value props range st = .ok (r?, st')) :
    st' = st := by
  unfold Adjustments.offsetStart at h
  split at h
  · simp only [Except.ok.injEq, Prod.mk.injEq] at h
    exact h.2.symm
  · dsimp only at h
    split at h
    · exact Except.noConfusion h
    · simp only [Except.ok.injEq, Prod.mk.injEq] at h
      exact h.2.symm

theorem state_of_offsetEnd (cfg : ResolverConfig) (node : SyntaxNode)
    (value : String) (props : Props) (range : CRange) (st : ResolverState)
    (r? : Option CRange) (st' : ResolverState)
    (h : Adjustments.offsetEnd cfg node value props range st = .ok (r?, st')) :
    st' = st := by
  unfold Adjustments.offsetEnd at h
  split at h
  · simp only [Except.ok.injEq, Prod.mk.injEq] at h
    exact h.2.symm
  · dsimp only at h
    split at h
    · exact Except.noConfusion h
    · simp only [Except.ok.injEq, Prod.mk.injEq] at h
      exact h.2.symm

theorem state_of_startAndEndAroundFirstMatchOf (cfg : ResolverConfig)
    (node : SyntaxNode) (value : String) (props : Props) (position : CRange)
    (st : ResolverState) (r? : Option CRange) (st' : ResolverState)
    (h : Adjustments.startAndEndAroundFirstMatchOf cfg node value props position st
        = .ok (r?, st')) :
    st'.map = st.map ∧ st'.rangeData = st.rangeData := by
  unfold Adjustments.startAndEndAroundFirstMatchOf at h
  rcases hc : ScopeResolver.getOrCompilePattern st value with ⟨regex, st1⟩
  rw [hc] at h
  have hm := ScopeResolver.getOrCompilePattern_map st value
  have hr := ScopeResolver.getOrCompilePattern_rangeData st value
  rw [hc] at hm hr
  dsimp only at h
  split at h <;>
    · simp only [Except.ok.injEq, Prod.mk.injEq] at h
      obtain ⟨-, rfl⟩ := h
      exact ⟨hm, hr⟩

theorem state_of_startBeforeFirstMatchOf (cfg : ResolverConfig)
    (node : SyntaxNode) (value : String) (props : Props) (position : CRange)
    (st : ResolverState) (r? : Option CRange) (st' : ResolverState)
    (h : Adjustments.startBeforeFirstMatchOf cfg node value props position st
        = .ok (r?, st')) :
    st'.map = st.map ∧ st'.rangeData = st.rangeData := by
  unfold Adjustments.startBeforeFirstMatchOf at h
  rcases hc : ScopeResolver.getOrCompilePattern st value with ⟨regex, st1⟩
  rw [hc] at h
  have hm := ScopeResolver.getOrCompilePattern_map st value
  have hr := ScopeResolver.getOrCompilePattern_rangeData st value
  rw [hc] at hm hr
  dsimp only at h
  split at h <;>
    · simp only [Except.ok.injEq, Prod.mk.injEq] at h
      obtain ⟨-, rfl⟩ := h
      exact ⟨hm, hr⟩

theorem state_of_startAfterFirstMatchOf (cfg : ResolverConfig)
    (node : SyntaxNode) (value : String) (props : Props) (position : CRange)
    (st : ResolverState) (r? : Option CRange) (st' : ResolverState)
    (h : Adjustments.startAfterFirstMatchOf cfg node value props position st
        = .ok (r?, st')) :
    st'.map = st.map ∧ st'.rangeData = st.rangeData := by
  unfold Adjustments.startAfterFirstMatchOf at h
  rcases hc : ScopeResolver.getOrCompilePattern st value with ⟨regex, st1⟩
  rw [hc] at h
  have hm := ScopeResolver.getOrCompilePattern_map st value
  have hr := ScopeResolver.getOrCompilePattern_rangeData st value
  rw [hc] at hm hr
  dsimp only at h
  split at h <;>
    · simp only [Except.ok.injEq, Prod.mk.injEq] at h
      obtain ⟨-, rfl⟩ := h
      exact ⟨hm, hr⟩

theorem state_of_endBeforeFirstMatchOf (cfg : ResolverConfig)
    (node : SyntaxNode) (value : String) (props : Props) (position : CRange)
    (st : ResolverState) (r? : Option CRange) (st' : ResolverState)
    (h : Adjustments.endBeforeFirstMatchOf cfg node value props position st
        = .ok (r?, st')) :
    st'.map = st.map ∧ st'.rangeData = st.rangeData := by
  unfold Adjustments.endBeforeFirstMatchOf at h
  rcases hc : ScopeResolver.getOrCompilePattern st value with ⟨regex, st1⟩
  rw [hc] at h
  have hm := ScopeResolver.getOrCompilePattern_map st value
  have hr := ScopeResolver.getOrCompilePattern_rangeData st value
  rw [hc] at hm hr
  dsimp only at h
  split at h <;>
    · simp only [Except.ok.injEq, Prod.mk.injEq] at h
      obtain ⟨-, rfl⟩ := h
      exact ⟨hm, hr⟩

theorem state_of_endAfterFirstMatchOf (cfg : ResolverConfig)
    (node : SyntaxNode) (value : String) (props : Props) (position : CRange)
    (st : ResolverState) (r? : Option CRange) (st' : ResolverState)
    (h : Adjustments.endAfterFirstMatchOf cfg node value props position st
        = .ok (r?, st')) :
    st'.map = st.map ∧ st'.rangeData = st.rangeData := by
  unfold Adjustments.endAfterFirstMatchOf at h
  rcases hc : ScopeResolver.getOrCompilePattern st value with ⟨regex, st1⟩
  rw [hc] at h
  have hm := ScopeResolver.getOrCompilePattern_map st value
  have hr := ScopeResolver.getOrCompilePattern_rangeData st value
  rw [hc] at hm hr
  dsimp only at h
  split at h <;>
    · simp only [Except.ok.injEq, Prod.mk.injEq] at h
      obtain ⟨-, rfl⟩ := h
      exact ⟨hm, hr⟩

/-- Every registered adjustment leaves the boundary map and the range
metadata unchanged: its only state effect is the pattern cache. -/
theorem ADJUSTMENTS_preserve (key : String) (f : AdjFn)
    (hk : ADJUSTMENTS key = some f) (cfg : ResolverConfig) (node : SyntaxNode)
    (value : String) (props : Props) (range : CRange) (st : ResolverState)
    (r? : Option CRange) (st' : ResolverState)
    (h : f cfg node value props range st = .ok (r?, st')) :
    st'.map = st.map ∧ st'.rangeData = st.rangeData := by
  have pos : ∀ g : AdjFn, f = g →
      (g cfg node value props range st = .ok (r?, st') → st' = st) →
      st'.map = st.map ∧ st'.rangeData = st.rangeData := by
    intro g hg hgs
    subst hg
    obtain rfl := hgs h
    exact ⟨rfl, rfl⟩
  unfold ADJUSTMENTS at hk
  split_ifs at hk
  all_goals injection hk with hk
  · exact pos _ hk.symm (state_of_startAt cfg node value props range st r? st')
  · exact pos _ hk.symm (state_of_endAt cfg node value props range st r? st')
  · exact pos _ hk.symm (state_of_offsetStart cfg node value props range st r? st')
  · exact pos _ hk.symm (state_of_offsetEnd cfg node value props range st r? st')
  · subst hk
    exact state_of_startAndEndAroundFirstMatchOf cfg node value props range st r? st' h
  · subst hk
    exact state_of_startBeforeFirstMatchOf cfg node value props range st r? st' h
  · subst hk
    exact state_of_startAfterFirstMatchOf cfg node value props range st r? st' h
  · subst hk
    exact state_of_endBeforeFirstMatchOf cfg node value props range st r? st' h
  · subst hk
    exact state_of_endAfterFirstMatchOf cfg node value props range st r? st' h

/-- The whole adjustment loop preserves the boundary map and the range
metadata. -/
theorem applyAdjustments_preserve (cfg : ResolverConfig) (node : SyntaxNode)
    (props : Props) :
    ∀ (entries : List (String × String)) (range : CRange) (st : ResolverState)
      (r? : Option CRange) (st' : ResolverState),
      ScopeResolver.applyAdjustments cfg node props entries range st = .ok (r?, st') →
      st'.map = st.map ∧ st'.rangeData = st.rangeData := by
  intro entries
  induction entries with
  | nil =>
    intro range st r? st' h
    unfold ScopeResolver.applyAdjustments at h
    simp only [Except.ok.injEq, Prod.mk.injEq] at h
    obtain ⟨-, rfl⟩ := h
    exact ⟨rfl, rfl⟩
  | cons kv rest ih =>
    intro range st r? st' h
    obtain ⟨key, value⟩ := kv
    unfold ScopeResolver.applyAdjustments at h
    split at h
    · exact ih range st r? st' h
    · rename_i adj hk
      split at h
      · exact Except.noConfusion h
      · rename_i st1 heq
        simp only [Except.ok.injEq, Prod.mk.injEq] at h
        obtain ⟨rfl, rfl⟩ := h
        exact ADJUSTMENTS_preserve key adj hk cfg node value props range st none st1 heq
      · rename_i range1 st1 heq
        have h1 :=
          ADJUSTMENTS_preserve key adj hk cfg node value props range st (some range1) st1 heq
        have h2 := ih range1 st1 r? st' h
        exact ⟨h2.1.trans h1.1, h2.2.trans h1.2⟩

/-- `determineCaptureRange` preserves the boundary map and the range
metadata: range resolution can only grow the pattern cache. -/
theorem determineCaptureRange_preserve (cfg : ResolverConfig)
    (st : ResolverState) (capture : Capture) (r? : Option CRange)
    (st' : ResolverState)
    (h : ScopeResolver.determineCaptureRange cfg st capture = .ok (r?, st')) :
    st'.map = st.map ∧ st'.rangeData = st.rangeData := by
  unfold ScopeResolver.determineCaptureRange at h
  split at h
  · simp only [Except.ok.injEq, Prod.mk.injEq] at h
    obtain ⟨-, rfl⟩ := h
    exact ⟨rfl, rfl⟩
  · dsimp only at h
    split at h
    · exact Except.noConfusion h
    · rename_i st1 heq
      simp only [Except.ok.injEq, Prod.mk.injEq] at h
      obtain ⟨-, rfl⟩ := h
      exact applyAdjustments_preserve cfg capture.node capture.setProperties
        capture.setProperties _ st none st1 heq
    · rename_i range1 st1 heq
      have h1 := applyAdjustments_preserve cfg capture.node capture.setProperties
        capture.setProperties _ st (some range1) st1 heq
      split at h <;>
        · simp only [Except.ok.injEq, Prod.mk.injEq] at h
          obtain ⟨-, rfl⟩ := h
          exact h1

/-! ## Effect lemmas for the recording steps -/

namespace ScopeResolver

theorem setDataForRange_map (st : ResolverState) (range : CRange) (props : Props) :
    (setDataForRange st range props).map = st.map := rfl

theorem setDataForRange_patternCache (st : ResolverState) (range : CRange)
    (props : Props) :
    (setDataForRange st range props).patternCache = st.patternCache := rfl

theorem getDataForRange_setDataForRange_self (st : ResolverState) (range : CRange)
    (props : Props) :
    getDataForRange (setDataForRange st range props) range = some props := by
  unfold getDataForRange setDataForRange
  exact assocGet_assocSet_self _ _ _

theorem setBoundary_rangeData (st : ResolverState) (point : Point) (id : String)
    (which : String) (root : Bool) :
    (setBoundary st point id which root).rangeData = st.rangeData := rfl

theorem setBoundary_patternCache (st : ResolverState) (point : Point) (id : String)
    (which : String) (root : Bool) :
    (setBoundary st point id which root).patternCache = st.patternCache := rfl

theorem opensAt_setBoundary_open (st : ResolverState) (p : Point) (id : String)
    (q : Point) :
    opensAt (setBoundary st p id "open" false) q =
      if q = p then opensAt st q ++ [id] else opensAt st q := by
  unfold opensAt setBoundary
  rcases eq_or_ne q p with rfl | h
  · simp [assocGet_assocSet_self]
  · simp [assocGet_assocSet_ne _ _ _ _ h, h]

theorem opensAt_setBoundary_close (st : ResolverState) (p : Point) (id : String)
    (q : Point) :
    opensAt (setBoundary st p id "close" false) q = opensAt st q := by
  unfold opensAt setBoundary
  rcases eq_or_ne q p with rfl | h
  · simp [assocGet_assocSet_self]
  · simp [assocGet_assocSet_ne _ _ _ _ h, h]

theorem closesAt_setBoundary_close (st : ResolverState) (p : Point) (id : String)
    (q : Point) :
    closesAt (setBoundary st p id "close" false) q =
      if q = p then id :: closesAt st q else closesAt st q := by
  unfold closesAt setBoundary
  rcases eq_or_ne q p with rfl | h
  · simp [assocGet_assocSet_self]
  · simp [assocGet_assocSet_ne _ _ _ _ h, h]

theorem closesAt_setBoundary_open (st : ResolverState) (p : Point) (id : String)
    (q : Point) :
    closesAt (setBoundary st p id "open" false) q = closesAt st q := by
  unfold closesAt setBoundary
  rcases eq_or_ne q p with rfl | h
  · simp [assocGet_assocSet_self]
  · simp [assocGet_assocSet_ne _ _ _ _ h, h]

end ScopeResolver

namespace ScopeResolver

theorem opensAt_congr_map (st1 st2 : ResolverState) (h : st1.map = st2.map)
    (q : Point) : opensAt st1 q = opensAt st2 q := by
  unfold opensAt
  rw [h]

theorem closesAt_congr_map (st1 st2 : ResolverState) (h : st1.map = st2.map)
    (q : Point) : closesAt st1 q = closesAt st2 q := by
  unfold closesAt
  rw [h]

/-- A rejected range resolution makes `store` return `false` (the state it
returns is the post-pipeline state, whose only change is the pattern
cache). -/
theorem store_of_range_none (cfg : ResolverConfig) (st : ResolverState)
    (capture : Capture) (st1 : ResolverState)
    (h : determineCaptureRange cfg st capture = .ok (none, st1)) :
    store cfg st capture = .ok (none, st1) := by
  unfold store
  rw [h]

/-- A propagated range-resolution exception propagates out of `store`. -/
theorem store_of_range_error (cfg : ResolverConfig) (st : ResolverState)
    (capture : Capture) (e : String)
    (h : determineCaptureRange cfg st capture = .error e) :
    store cfg st capture = .error e := by
  unfold store
  rw [h]

/-- A failed inclusion test makes `store` return `false` with the
post-pipeline state. -/
theorem store_of_test_false (cfg : ResolverConfig) (st : ResolverState)
    (capture : Capture) (range : CRange) (st1 : ResolverState)
    (h1 : determineCaptureRange cfg st capture = .ok (some range, st1))
    (h2 : test cfg st1 (getDataForRange st1 range) capture.setProperties
        capture.node = .ok false) :
    store cfg st capture = .ok (none, st1) := by
  unfold store
  rw [h1]
  dsimp only
  rw [h2]

/-- An accepted capture whose interpolated name is the suppression sentinel
records its metadata but stops before the boundary steps. -/
theorem store_of_ignore (cfg : ResolverConfig) (st : ResolverState)
    (capture : Capture) (range : CRange) (st1 : ResolverState)
    (hname : interpolateName capture.name capture.node = "_IGNORE_")
    (h1 : determineCaptureRange cfg st capture = .ok (some range, st1))
    (h2 : test cfg st1 (getDataForRange st1 range) capture.setProperties
        capture.node = .ok true) :
    store cfg st capture =
      .ok (none, setDataForRange st1 range capture.setProperties) := by
  unfold store
  rw [h1]
  dsimp only
  rw [h2, hname]
  dsimp only
  rw [if_pos rfl]

/-- Inversion of a successful `store`: the range came from
`determineCaptureRange`, the tests passed, the name is not the sentinel, and
the final state is exactly metadata-record plus open plus close. -/
theorem store_ok_some_inv (cfg : ResolverConfig) (st : ResolverState)
    (capture : Capture) (r : CRange) (st' : ResolverState)
    (h : store cfg st capture = .ok (some r, st')) :
    ∃ st1,
      determineCaptureRange cfg st capture = .ok (some r, st1) ∧
      test cfg st1 (getDataForRange st1 r) capture.setProperties
        capture.node = .ok true ∧
      interpolateName capture.name capture.node ≠ "_IGNORE_" ∧
      st' = setBoundary
              (setBoundary (setDataForRange st1 r capture.setProperties)
                r.startPosition
                (cfg.idForScope (interpolateName capture.name capture.node))
                "open" false)
              r.endPosition
              (cfg.idForScope (interpolateName capture.name capture.node))
              "close" false := by
  unfold store at h
  dsimp only at h
  split at h
  · exact Except.noConfusion h
  · simp at h
  · rename_i range st1 heq
    split at h
    · exact Except.noConfusion h
    · simp at h
    · rename_i htest
      split at h
      · simp at h
      · rename_i hname
        simp only [Except.ok.injEq, Prod.mk.injEq, Option.some.injEq] at h
        obtain ⟨rfl, rfl⟩ := h
        exact ⟨st1, heq, htest, hname, rfl⟩

/-- The effect of a successful `store` on the `open` lists: the interpolated
scope id is appended at the range's start position and nowhere else. -/
theorem store_opensAt (cfg : ResolverConfig) (st : ResolverState)
    (capture : Capture) (r : CRange) (st' : ResolverState)
    (h : store cfg st capture = .ok (some r, st')) (q : Point) :
    opensAt st' q =
      if q = r.startPosition then
        opensAt st q ++ [cfg.idForScope (interpolateName capture.name capture.node)]
      else opensAt st q := by
  obtain ⟨st1, hdet, -, -, rfl⟩ := store_ok_some_inv cfg st capture r st' h
  have hm := (determineCaptureRange_preserve cfg st capture (some r) st1 hdet).1
  rw [opensAt_setBoundary_close, opensAt_setBoundary_open]
  have hY : opensAt (setDataForRange st1 r capture.setProperties) q = opensAt st q := by
    unfold opensAt
    rw [setDataForRange_map, hm]
  rw [hY]

/-- The effect of a successful `store` on the `close` lists: the
interpolated scope id is prepended at the range's end position and nowhere
else. -/
theorem store_closesAt (cfg : ResolverConfig) (st : ResolverState)
    (capture : Capture) (r : CRange) (st' : ResolverState)
    (h : store cfg st capture = .ok (some r, st')) (q : Point) :
    closesAt st' q =
      if q = r.endPosition then
        cfg.idForScope (interpolateName capture.name capture.node) :: closesAt st q
      else closesAt st q := by
  obtain ⟨st1, hdet, -, -, rfl⟩ := store_ok_some_inv cfg st capture r st' h
  have hm := (determineCaptureRange_preserve cfg st capture (some r) st1 hdet).1
  rw [closesAt_setBoundary_close]
  have hY : ∀ q', closesAt (setBoundary (setDataForRange st1 r capture.setProperties)
      r.startPosition (cfg.idForScope (interpolateName capture.name capture.node))
      "open" false) q' = closesAt st q' := by
    intro q'
    rw [closesAt_setBoundary_open]
    unfold closesAt
    rw [setDataForRange_map, hm]
  rw [hY]

end ScopeResolver

/-! ## Concrete fixtures

A one-line buffer in which a position's column is its character index, a
resolver over it with the default identity `idForScope`, and small trees. -/

def unitBuffer : Buffer :=
  { positionForCharacterIndex := fun i => ⟨0, i⟩,
    characterIndexForPosition := fun p => p.column,
    clipPosition := fun p => p,
    lineForRow := fun _ => "" }

def unitCfg : ResolverConfig :=
  { languageLayer := { buffer := unitBuffer, depth := 0 },
    idForScope := fun s => s,
    regexMatch := fun _ _ => none }

def emptyResolverState : ResolverState := ⟨[], [], []⟩

/-- A leaf node covering `abc` at columns 0-3 of row 0. -/
def abcInfo : NodeInfo :=
  { startPosition := ⟨0, 0⟩, endPosition := ⟨0, 3⟩, startIndex := 0, endIndex := 3,
    type := "t", text := "abc", hasError := false }

def abcNode : SyntaxNode := ⟨NodeTree.mk abcInfo [], []⟩

def abcRange : CRange := ⟨⟨0, 0⟩, ⟨0, 3⟩, 0, 3⟩

/-- A leaf node whose text is `bar` and whose grammar type is `word`. -/
def barNode : SyntaxNode :=
  ⟨NodeTree.mk { abcInfo with text := "bar", type := "word" } [], []⟩

/-- A leaf node whose text `a b` contains a space. -/
def abNode : SyntaxNode :=
  ⟨NodeTree.mk { abcInfo with text := "a b" } [], []⟩

/-- A leaf node whose space-free text `$$` is a JS replacement-string
escape sequence. -/
def dollarNode : SyntaxNode :=
  ⟨NodeTree.mk { abcInfo with text := "$$" } [], []⟩

/-- A zero-width node: `startPosition = endPosition`, an invalid extent. -/
def zeroNode : SyntaxNode :=
  ⟨NodeTree.mk { startPosition := ⟨0, 0⟩, endPosition := ⟨0, 0⟩, startIndex := 0,
                 endIndex := 0, type := "z", text := "", hasError := false } [], []⟩

def zeroRange : CRange := ⟨⟨0, 0⟩, ⟨0, 0⟩, 0, 0⟩

/-- A parent whose only child lies outside the parent's own extent (row 5
versus row 0), so `startAt firstChild.startPosition` resolves out of
range. -/
def outParentNode : SyntaxNode :=
  ⟨NodeTree.mk abcInfo
    [NodeTree.mk { startPosition := ⟨5, 0⟩, endPosition := ⟨5, 1⟩, startIndex := 50,
                   endIndex := 51, type := "c", text := "z", hasError := false } []],
   []⟩

def capFoo : Capture := ⟨abcNode, "a", [("foo", "1")]⟩

def capBar : Capture := ⟨abcNode, "b", [("bar", "2")]⟩

def capThird : Capture := ⟨abcNode, "c", []⟩

def capIgnore : Capture := ⟨abcNode, "_IGNORE_", [("ig", "1")]⟩

def capZero : Capture := ⟨zeroNode, "s", []⟩

def capOffX : Capture := ⟨abcNode, "s", [("offsetStart", "x")]⟩

def capStartAtOut : Capture := ⟨outParentNode, "s", [("startAt", "firstChild.startPosition")]⟩

def capShy : Capture := ⟨abcNode, "s", [("shy", "true")]⟩

def capAfterFinal : Capture := ⟨abcNode, "b", [("final", "true"), ("bar", "2")]⟩

/-- The resolver state after `capFoo` is stored into the empty state. -/
def stateAfterFoo : ResolverState :=
  { map := [(⟨0, 0⟩, ⟨["a"], []⟩), (⟨0, 3⟩, ⟨[], ["a"]⟩)],
    rangeData := [((0, 3), [("foo", "1")])],
    patternCache := [] }

/-- The resolver state after `capFoo` then `capBar`. -/
def stateAfterBar : ResolverState :=
  { map := [(⟨0, 0⟩, ⟨["a", "b"], []⟩), (⟨0, 3⟩, ⟨[], ["b", "a"]⟩)],
    rangeData := [((0, 3), [("bar", "2")])],
    patternCache := [] }

/-- The resolver state after `capFoo`, `capBar`, `capThird`. -/
def stateAfterThird : ResolverState :=
  { map := [(⟨0, 0⟩, ⟨["a", "b", "c"], []⟩), (⟨0, 3⟩, ⟨[], ["c", "b", "a"]⟩)],
    rangeData := [((0, 3), [])],
    patternCache := [] }

/-- A state whose range metadata for `abcRange` carries truthy `final`. -/
def finalSeededState : ResolverState :=
  { map := [], rangeData := [((0, 3), [("final", "true")])], patternCache := [] }

/-- A state with one boundary, one metadata entry, and one cached
pattern. -/
def cachedState : ResolverState :=
  { map := [(⟨0, 0⟩, ⟨["x"], []⟩)],
    rangeData := [((0, 1), [("k", "v")])],
    patternCache := [("ab+", ⟨"ab+"⟩)] }

/-! ## The claims -/

/-- C1: once a capture has recorded metadata with a (truthy) `final` key for
a range R, every later `store` of a capture resolving to the same
`startIndex`/`endIndex` key returns false and adds neither metadata nor
boundary entries, no matter which directive keys the later capture carries:
the `final` short-circuit in `test` fires before any per-key test runs. -/
theorem c1_final_blocks_later_captures (cfg : ResolverConfig)
    (st : ResolverState) (capture : Capture) (R : CRange) (d : Props)
    (r : CRange) (st1 : ResolverState)
    (hdata : ScopeResolver.getDataForRange st R = some d)
    (hfinal : jsTruthy (Props.get d "final") = true)
    (hres : ScopeResolver.determineCaptureRange cfg st capture = .ok (some r, st1))
    (hs : r.startIndex = R.startIndex) (he : r.endIndex = R.endIndex) :
    ScopeResolver.store cfg st capture = .ok (none, st1) ∧
    st1.map = st.map ∧ st1.rangeData = st.rangeData := by
  have hpres := determineCaptureRange_preserve cfg st capture (some r) st1 hres
  have hdata1 : ScopeResolver.getDataForRange st1 r = some d := by
    unfold ScopeResolver.getDataForRange at hdata ⊢
    rw [hs, he, hpres.2]
    exact hdata
  have htest : ScopeResolver.test cfg st1 (ScopeResolver.getDataForRange st1 r)
      capture.setProperties capture.node = .ok false := by
    rw [hdata1]
    unfold ScopeResolver.test
    rw [if_pos]
    simpa using hfinal
  exact ⟨ScopeResolver.store_of_test_false cfg st capture r st1 hres htest,
    hpres.1, hpres.2⟩

/-- C1 witness: with `final` metadata recorded for `abc`'s range, a later
capture for the same range — itself carrying `final` and another key — is
rejected and the state is untouched. -/
theorem c1_witness :
    ScopeResolver.store unitCfg finalSeededState capAfterFinal
      = .ok (none, finalSeededState) ∧
    finalSeededState.map = finalSeededState.map ∧
    finalSeededState.rangeData = finalSeededState.rangeData :=
  c1_final_blocks_later_captures unitCfg finalSeededState capAfterFinal
    abcRange [("final", "true")] abcRange finalSeededState rfl rfl rfl rfl rfl

/-- C5: a capture whose interpolated name is the sentinel `_IGNORE_`, whose
range resolves, and whose tests pass, has its properties recorded as the
range's metadata, while the boundary map is left exactly as before — no
open or close entry is added at any position. -/
theorem c5_ignore_records_metadata_without_boundaries (cfg : ResolverConfig)
    (st : ResolverState) (capture : Capture) (r : CRange) (st1 : ResolverState)
    (hname : ScopeResolver.interpolateName capture.name capture.node = "_IGNORE_")
    (hres : ScopeResolver.determineCaptureRange cfg st capture = .ok (some r, st1))
    (htest : ScopeResolver.test cfg st1 (ScopeResolver.getDataForRange st1 r)
        capture.setProperties capture.node = .ok true) :
    ScopeResolver.store cfg st capture
      = .ok (none, ScopeResolver.setDataForRange st1 r capture.setProperties) ∧
    (ScopeResolver.setDataForRange st1 r capture.setProperties).map = st.map ∧
    ScopeResolver.getDataForRange
        (ScopeResolver.setDataForRange st1 r capture.setProperties) r
      = some capture.setProperties := by
  have hpres := determineCaptureRange_preserve cfg st capture (some r) st1 hres
  refine ⟨ScopeResolver.store_of_ignore cfg st capture r st1 hname hres htest, ?_, ?_⟩
  · rw [ScopeResolver.setDataForRange_map]
    exact hpres.1
  · exact ScopeResolver.getDataForRange_setDataForRange_self st1 r capture.setProperties

/-- C5 witness: storing the `_IGNORE_`-named capture records its properties
for `abc`'s range and leaves the boundary map empty. -/
theorem c5_witness :
    ScopeResolver.store unitCfg emptyResolverState capIgnore
      = .ok (none, ScopeResolver.setDataForRange emptyResolverState abcRange
              capIgnore.setProperties) ∧
    (ScopeResolver.setDataForRange emptyResolverState abcRange
        capIgnore.setProperties).map = emptyResolverState.map ∧
    ScopeResolver.getDataForRange
        (ScopeResolver.setDataForRange emptyResolverState abcRange
          capIgnore.setProperties) abcRange
      = some capIgnore.setProperties :=
  c5_ignore_records_metadata_without_boundaries unitCfg emptyResolverState
    capIgnore abcRange emptyResolverState rfl rfl rfl

/-- C9: after `reset`, every range-metadata lookup and every boundary-map
lookup reports nothing, the pattern cache field is untouched (so a
previously compiled pattern is returned from the cache with no state
change, i.e. without recompiling), and `reset` is idempotent. -/
theorem c9_reset_clears_all_but_pattern_cache (st : ResolverState) :
    (∀ r : CRange, ScopeResolver.getDataForRange (ScopeResolver.reset st) r = none) ∧
    (∀ p : Point, assocGet (ScopeResolver.reset st).map p = none) ∧
    (ScopeResolver.reset st).patternCache = st.patternCache ∧
    (∀ (pattern : String) (regex : CompiledRegex),
       assocGet st.patternCache pattern = some regex →
       ScopeResolver.getOrCompilePattern (ScopeResolver.reset st) pattern
         = (regex, ScopeResolver.reset st)) ∧
    ScopeResolver.reset (ScopeResolver.reset st) = ScopeResolver.reset st := by
  refine ⟨fun r => rfl, fun p => rfl, rfl, ?_, rfl⟩
  intro pattern regex h
  unfold ScopeResolver.getOrCompilePattern
  have hc : (ScopeResolver.reset st).patternCache = st.patternCache := rfl
  rw [hc, h]

/-- C9 witness: resetting a state with a boundary, a metadata entry and a
cached pattern empties the first two and keeps the cache serving the
compiled pattern unchanged. -/
theorem c9_witness :
    ScopeResolver.getDataForRange (ScopeResolver.reset cachedState) ⟨⟨0, 0⟩, ⟨0, 1⟩, 0, 1⟩ = none ∧
    assocGet (ScopeResolver.reset cachedState).map ⟨0, 0⟩ = none ∧
    (ScopeResolver.reset cachedState).patternCache = cachedState.patternCache ∧
    ScopeResolver.getOrCompilePattern (ScopeResolver.reset cachedState) "ab+"
      = (⟨"ab+"⟩, ScopeResolver.reset cachedState) ∧
    ScopeResolver.reset (ScopeResolver.reset cachedState) = ScopeResolver.reset cachedState := by
  obtain ⟨h1, h2, h3, h4, h5⟩ := c9_reset_clears_all_but_pattern_cache cachedState
  exact ⟨h1 ⟨⟨0, 0⟩, ⟨0, 1⟩, 0, 1⟩, h2 ⟨0, 0⟩, h3, h4 "ab+" ⟨"ab+"⟩ rfl, h5⟩

/-- C10: rejection is atomic.  A capture rejected before the
metadata-recording step — its resolved range is `null`, or an inclusion
test (the `final` short-circuit included) returns false — makes `store`
return false with the boundary map and the range metadata exactly as they
were before the call. -/
theorem c10_rejection_is_atomic (cfg : ResolverConfig) (st : ResolverState)
    (capture : Capture) :
    (∀ st1 : ResolverState,
       ScopeResolver.determineCaptureRange cfg st capture = .ok (none, st1) →
       ScopeResolver.store cfg st capture = .ok (none, st1) ∧
       st1.map = st.map ∧ st1.rangeData = st.rangeData) ∧
    (∀ (r : CRange) (st1 : ResolverState),
       ScopeResolver.determineCaptureRange cfg st capture = .ok (some r, st1) →
       ScopeResolver.test cfg st1 (ScopeResolver.getDataForRange st1 r)
         capture.setProperties capture.node = .ok false →
       ScopeResolver.store cfg st capture = .ok (none, st1) ∧
       st1.map = st.map ∧ st1.rangeData = st.rangeData) := by
  constructor
  · intro st1 h
    have hpres := determineCaptureRange_preserve cfg st capture none st1 h
    exact ⟨ScopeResolver.store_of_range_none cfg st capture st1 h, hpres.1, hpres.2⟩
  · intro r st1 h ht
    have hpres := determineCaptureRange_preserve cfg st capture (some r) st1 h
    exact ⟨ScopeResolver.store_of_test_false cfg st capture r st1 h ht, hpres.1, hpres.2⟩

/-- C10 witness: a `shy` capture rejected because metadata already exists
for `abc`'s range leaves the state exactly as it was. -/
theorem c10_witness :
    ScopeResolver.store unitCfg stateAfterFoo capShy = .ok (none, stateAfterFoo) ∧
    stateAfterFoo.map = stateAfterFoo.map ∧
    stateAfterFoo.rangeData = stateAfterFoo.rangeData :=
  (c10_rejection_is_atomic unitCfg stateAfterFoo capShy).2 abcRange stateAfterFoo rfl rfl

/-- C2 as stated is false: the range-metadata store is written
unconditionally by every accepted capture.  Concretely, `capFoo` (no
`final`) claims `abc`'s range with properties `foo=1`; the later `capBar`
also passes its (vacuous) tests for exactly that range, and afterwards the
stored metadata is `capBar`'s `bar=2` — `capFoo`'s metadata has been
replaced. -/
theorem c2_counterexample :
    ScopeResolver.store unitCfg emptyResolverState capFoo
      = .ok (some abcRange, stateAfterFoo) ∧
    capFoo.setProperties = [("foo", "1")] ∧
    Props.get capFoo.setProperties "final" = none ∧
    ScopeResolver.store unitCfg stateAfterFoo capBar
      = .ok (some abcRange, stateAfterBar) ∧
    ScopeResolver.getDataForRange stateAfterBar abcRange = some [("bar", "2")] ∧
    some capFoo.setProperties ≠ (some [("bar", "2")] : Option Props) :=
  ⟨rfl, rfl, rfl, rfl, rfl, by decide⟩

/-- C2 amended: the range-metadata store maps each exact
(startIndex, endIndex) key to the `setProperties` of the most recent
capture that successfully claimed that range — `setDataForRange` has
last-write semantics, and first-wins holds only when a test (such as
`final` or `shy`) rejects the later capture.  After any successful `store`,
the stored metadata for the claimed range is the stored capture's own
properties. -/
theorem c2_amended_metadata_is_last_write (cfg : ResolverConfig)
    (st : ResolverState) (capture : Capture) (r : CRange) (st' : ResolverState)
    (h : ScopeResolver.store cfg st capture = .ok (some r, st')) :
    ScopeResolver.getDataForRange st' r = some capture.setProperties := by
  obtain ⟨st1, -, -, -, rfl⟩ :=
    ScopeResolver.store_ok_some_inv cfg st capture r st' h
  unfold ScopeResolver.getDataForRange
  rw [ScopeResolver.setBoundary_rangeData, ScopeResolver.setBoundary_rangeData]
  exact assocGet_assocSet_self _ _ _

/-- C2 amended witness: after `capBar`'s successful store over `capFoo`'s
state, the metadata for `abc`'s range is `capBar`'s properties. -/
theorem c2_witness :
    ScopeResolver.getDataForRange stateAfterBar abcRange
      = some capBar.setProperties :=
  c2_amended_metadata_is_last_write unitCfg stateAfterFoo capBar abcRange
    stateAfterBar rfl

/-- C3 as stated is false: a capture with no adjustment directives skips
`isValidRange` entirely (`determineCaptureRange` returns the node itself
before the validation step).  Concretely a zero-width node — start equal to
end, an invalid range — is stored: `store` returns the range, records
metadata for it, and registers both an open and a close boundary at the
degenerate position. -/
theorem c3_counterexample :
    ScopeResolver.isValidRange zeroRange = false ∧
    capZero.setProperties = [] ∧
    ScopeResolver.store unitCfg emptyResolverState capZero
      = .ok (some zeroRange,
          ⟨[(⟨0, 0⟩, ⟨["s"], ["s"]⟩)], [((0, 0), [])], []⟩) ∧
    ScopeResolver.getDataForRange
        ⟨[(⟨0, 0⟩, ⟨["s"], ["s"]⟩)], [((0, 0), [])], []⟩ zeroRange = some [] ∧
    ScopeResolver.opensAt
        ⟨[(⟨0, 0⟩, ⟨["s"], ["s"]⟩)], [((0, 0), [])], []⟩ ⟨0, 0⟩ = ["s"] :=
  ⟨rfl, rfl, rfl, rfl, rfl⟩

/-- C3 amended: the validity check applies only to captures that carry at
least one recognized adjustment directive.  For those, any range
successfully produced by `determineCaptureRange` is valid, and a rejected
pipeline (`null` range, which includes the invalid-result case) makes
`store` return false with the boundary map and range metadata unchanged.
A capture without adjustment directives resolves to its node's extent
unvalidated, as the counterexample shows. -/
theorem c3_amended_validation_only_with_adjustments (cfg : ResolverConfig)
    (st : ResolverState) (capture : Capture)
    (hadj : ScopeResolver.adjustsCaptureRange capture = true) :
    (∀ (r : CRange) (st1 : ResolverState),
       ScopeResolver.determineCaptureRange cfg st capture = .ok (some r, st1) →
       ScopeResolver.isValidRange r = true) ∧
    (∀ st1 : ResolverState,
       ScopeResolver.determineCaptureRange cfg st capture = .ok (none, st1) →
       ScopeResolver.store cfg st capture = .ok (none, st1) ∧
       st1.map = st.map ∧ st1.rangeData = st.rangeData) := by
  constructor
  · intro r st1 h
    unfold ScopeResolver.determineCaptureRange at h
    rw [hadj] at h
    rw [if_neg (by decide : ¬((!true) = true))] at h
    dsimp only at h
    split at h
    · exact Except.noConfusion h
    · simp at h
    · rename_i range1 st1' heq
      split at h
      · simp at h
      · rename_i hv
        simp only [Except.ok.injEq, Prod.mk.injEq, Option.some.injEq] at h
        obtain ⟨rfl, rfl⟩ := h
        simpa using hv
  · intro st1 h
    have hpres := determineCaptureRange_preserve cfg st capture none st1 h
    exact ⟨ScopeResolver.store_of_range_none cfg st capture st1 h, hpres.1, hpres.2⟩

/-- C3 amended witness: `offsetStart x` is a recognized adjustment whose
pipeline rejects, and the store drops the capture with no state change. -/
theorem c3_witness :
    ScopeResolver.store unitCfg emptyResolverState capOffX
      = .ok (none, emptyResolverState) ∧
    emptyResolverState.map = emptyResolverState.map ∧
    emptyResolverState.rangeData = emptyResolverState.rangeData :=
  (c3_amended_validation_only_with_adjustments unitCfg emptyResolverState
    capOffX rfl).2 emptyResolverState rfl

/-- C4: three captures stored successfully in call order, whose resolved
ranges start at one position P, produce the open list `[A, B, C]` at P
(default open registration appends); if their ranges also end at one
position Q, the close list at Q is `[C, B, A]` (default close registration
prepends). -/
theorem c4_same_position_open_close_order (cfg : ResolverConfig)
    (st0 : ResolverState) (a b c : Capture) (ra rb rc : CRange)
    (st1 st2 st3 : ResolverState) (P : Point)
    (ha : ScopeResolver.store cfg st0 a = .ok (some ra, st1))
    (hb : ScopeResolver.store cfg st1 b = .ok (some rb, st2))
    (hc : ScopeResolver.store cfg st2 c = .ok (some rc, st3))
    (hPa : ra.startPosition = P) (hPb : rb.startPosition = P)
    (hPc : rc.startPosition = P)
    (hP0 : ScopeResolver.opensAt st0 P = []) :
    ScopeResolver.opensAt st3 P =
      [cfg.idForScope (ScopeResolver.interpolateName a.name a.node),
       cfg.idForScope (ScopeResolver.interpolateName b.name b.node),
       cfg.idForScope (ScopeResolver.interpolateName c.name c.node)] ∧
    (∀ Q : Point, ra.endPosition = Q → rb.endPosition = Q → rc.endPosition = Q →
       ScopeResolver.closesAt st0 Q = [] →
       ScopeResolver.closesAt st3 Q =
         [cfg.idForScope (ScopeResolver.interpolateName c.name c.node),
          cfg.idForScope (ScopeResolver.interpolateName b.name b.node),
          cfg.idForScope (ScopeResolver.interpolateName a.name a.node)]) := by
  constructor
  · have oa := ScopeResolver.store_opensAt cfg st0 a ra st1 ha P
    have ob := ScopeResolver.store_opensAt cfg st1 b rb st2 hb P
    have oc := ScopeResolver.store_opensAt cfg st2 c rc st3 hc P
    rw [hPa, if_pos rfl] at oa
    rw [hPb, if_pos rfl] at ob
    rw [hPc, if_pos rfl] at oc
    rw [oc, ob, oa, hP0]
    rfl
  · intro Q hQa hQb hQc hQ0
    have ca := ScopeResolver.store_closesAt cfg st0 a ra st1 ha Q
    have cb := ScopeResolver.store_closesAt cfg st1 b rb st2 hb Q
    have cc := ScopeResolver.store_closesAt cfg st2 c rc st3 hc Q
    rw [hQa, if_pos rfl] at ca
    rw [hQb, if_pos rfl] at cb
    rw [hQc, if_pos rfl] at cc
    rw [cc, cb, ca, hQ0]

/-- C4 witness: the three captures `a`, `b`, `c` over the `abc` node open
`[a, b, c]` at the shared start and close `[c, b, a]` at the shared end. -/
theorem c4_witness :
    ScopeResolver.opensAt stateAfterThird ⟨0, 0⟩ = ["a", "b", "c"] ∧
    ScopeResolver.closesAt stateAfterThird ⟨0, 3⟩ = ["c", "b", "a"] := by
  have h := c4_same_position_open_close_order unitCfg emptyResolverState
    capFoo capBar capThird abcRange abcRange abcRange
    stateAfterFoo stateAfterBar stateAfterThird ⟨0, 0⟩
    rfl rfl rfl rfl rfl rfl rfl
  exact ⟨h.1, h.2 ⟨0, 3⟩ rfl rfl rfl rfl⟩

/-- A pattern that does not occur in a string is not replaced. -/
theorem replaceFirst_of_not_includes (s pat rep : String)
    (h : strIncludes s pat = false) : replaceFirst s pat rep = s := by
  unfold strIncludes at h
  unfold replaceFirst
  rw [Bool.or_eq_false_iff] at h
  obtain ⟨h1, h2⟩ := h
  rw [if_neg (by simp [h1])]
  cases hsp : splitFirst pat.data s.data with
  | none => rfl
  | some pr =>
    rw [hsp] at h2
    simp at h2

/-- A replacement with no dollar sign is substituted literally by
GetSubstitution. -/
theorem getSubstitution_no_dollar (matched before after : List Char) :
    ∀ rep : List Char, (∀ ch ∈ rep, ch ≠ '$') →
      getSubstitution matched before after rep = rep := by
  intro rep
  induction rep with
  | nil => intro _; rfl
  | cons x xs ih =>
    intro h
    have hx : x ≠ '$' := h x (List.mem_cons_self _ _)
    have hxs : ∀ ch ∈ xs, ch ≠ '$' := fun ch hc => h ch (List.mem_cons_of_mem _ hc)
    unfold getSubstitution
    rw [if_neg hx, ih hxs]

/-- C6 as stated is false: the `_TEXT_` token is not replaced with the
node's *literal* text, because JS `String.prototype.replace` expands
`$`-escape sequences in the replacement even for a string pattern.  The
node text `$$` contains no space, yet `foo._TEXT_` interpolates to `foo.$`
rather than to `foo.$$`. -/
theorem c6_counterexample :
    dollarNode.text = "$$" ∧
    strIncludes dollarNode.text " " = false ∧
    ScopeResolver.interpolateName "foo._TEXT_" dollarNode = "foo.$" ∧
    ScopeResolver.interpolateName "foo._TEXT_" dollarNode ≠ "foo.$$" :=
  ⟨rfl, rfl, rfl, by decide⟩

/-- C6 amended: interpolation substitutes the first `_TEXT_` token if and
only if the node's text contains no space (otherwise the token stays
literally), and substitutes the first `_TYPE_` token unconditionally — but
each substitution is a JS string replacement, which expands `$` escape
sequences in the inserted text; when the node's text contains no `$`, the
token is replaced with the literal text, as in the claim's examples. -/
theorem c6_amended_interpolation_as_replacement (name : String) (node : SyntaxNode) :
    (strIncludes node.text " " = false →
       ScopeResolver.interpolateName name node =
         replaceFirst (replaceFirst name "_TEXT_" node.text) "_TYPE_" node.type) ∧
    (strIncludes node.text " " = true →
       ScopeResolver.interpolateName name node =
         replaceFirst name "_TYPE_" node.type) ∧
    (∀ pre post : List Char,
       splitFirst ("_TEXT_" : String).data name.data = some (pre, post) →
       (∀ ch ∈ node.text.data, ch ≠ '$') →
       replaceFirst name "_TEXT_" node.text
         = String.mk (pre ++ node.text.data ++ post)) := by
  refine ⟨?_, ?_, ?_⟩
  · intro hsp
    unfold ScopeResolver.interpolateName
    rw [hsp]
    simp only [Bool.not_false, Bool.and_true]
    cases hinc : strIncludes name "_TEXT_" with
    | true => rw [if_pos rfl]
    | false =>
      rw [if_neg (by simp)]
      rw [replaceFirst_of_not_includes name "_TEXT_" node.text hinc]
  · intro hsp
    unfold ScopeResolver.interpolateName
    rw [hsp]
    simp only [Bool.not_true, Bool.and_false]
    rw [if_neg (by simp)]
  · intro pre post hsplit hnod
    unfold replaceFirst
    rw [if_neg (by decide : ¬(("_TEXT_" : String).data.isEmpty = true))]
    rw [hsplit]
    dsimp only
    rw [getSubstitution_no_dollar ("_TEXT_" : String).data pre post
      node.text.data hnod]

/-- C6 witness: `foo._TEXT_` over the dollar-free text `bar` becomes
`foo.bar` (the literal-insertion conjunct applies with `pre = "foo."` and
`post = ""`); over text `a b` (a space) the token stays literal. -/
theorem c6_witness :
    ScopeResolver.interpolateName "foo._TEXT_" barNode = "foo.bar" ∧
    ScopeResolver.interpolateName "foo._TEXT_" abNode = "foo._TEXT_" ∧
    replaceFirst "foo._TEXT_" "_TEXT_" barNode.text
      = String.mk ("foo.".data ++ barNode.text.data ++ ([] : List Char)) := by
  refine ⟨?_, ?_, ?_⟩
  · rw [(c6_amended_interpolation_as_replacement "foo._TEXT_" barNode).1 rfl]
    rfl
  · rw [(c6_amended_interpolation_as_replacement "foo._TEXT_" abNode).2.1 rfl]
    rfl
  · exact (c6_amended_interpolation_as_replacement "foo._TEXT_" barNode).2.2
      "foo.".data [] rfl (by decide)

/-- C7: a `startAt`/`endAt`/`offsetStart`/`offsetEnd` adjustment whose
resolved position falls outside the closed interval between the original
node's start and end positions throws the extent error, and adjustment
errors are not caught anywhere: an erroring head adjustment makes the whole
pipeline error, and a pipeline error propagates out of `store`. -/
theorem c7_extent_violation_raises :
    (∀ (cfg : ResolverConfig) (node : SyntaxNode) (value : String) (props : Props)
       (range : CRange) (st : ResolverState) (p : Point),
       resolveNodePosition node value = .ok (.point p) →
       isBetweenPoints p node.startPosition node.endPosition = false →
       Adjustments.startAt cfg node value props range st = .error extentError) ∧
    (∀ (cfg : ResolverConfig) (node : SyntaxNode) (value : String) (props : Props)
       (range : CRange) (st : ResolverState) (p : Point),
       resolveNodePosition node value = .ok (.point p) →
       isBetweenPoints p node.startPosition node.endPosition = false →
       Adjustments.endAt cfg node value props range st = .error extentError) ∧
    (∀ (cfg : ResolverConfig) (node : SyntaxNode) (value : String) (props : Props)
       (range : CRange) (st : ResolverState) (off : Int),
       jsNumber value = some off →
       isBetweenPoints (ScopeResolver.adjustPositionByOffset cfg range.startPosition off)
         node.startPosition node.endPosition = false →
       Adjustments.offsetStart cfg node value props range st = .error extentError) ∧
    (∀ (cfg : ResolverConfig) (node : SyntaxNode) (value : String) (props : Props)
       (range : CRange) (st : ResolverState) (off : Int),
       jsNumber value = some off →
       isBetweenPoints (ScopeResolver.adjustPositionByOffset cfg range.endPosition off)
         node.startPosition node.endPosition = false →
       Adjustments.offsetEnd cfg node value props range st = .error extentError) ∧
    (∀ (cfg : ResolverConfig) (node : SyntaxNode) (props : Props) (key value : String)
       (rest : List (String × String)) (range : CRange) (st : ResolverState)
       (adj : AdjFn) (e : String),
       ADJUSTMENTS key = some adj →
       adj cfg node value props range st = .error e →
       ScopeResolver.applyAdjustments cfg node props ((key, value) :: rest) range st
         = .error e) ∧
    (∀ (cfg : ResolverConfig) (st : ResolverState) (capture : Capture) (e : String),
       ScopeResolver.determineCaptureRange cfg st capture = .error e →
       ScopeResolver.store cfg st capture = .error e) := by
  refine ⟨?_, ?_, ?_, ?_, ?_, ?_⟩
  · intro cfg node value props range st p h1 h2
    unfold Adjustments.startAt
    rw [h1]
    dsimp only
    rw [h2]
    rfl
  · intro cfg node value props range st p h1 h2
    unfold Adjustments.endAt
    rw [h1]
    dsimp only
    rw [h2]
    rfl
  · intro cfg node value props range st off h1 h2
    unfold Adjustments.offsetStart
    rw [h1]
    dsimp only
    rw [h2]
    rfl
  · intro cfg node value props range st off h1 h2
    unfold Adjustments.offsetEnd
    rw [h1]
    dsimp only
    rw [h2]
    rfl
  · intro cfg node props key value rest range st adj e hk herr
    unfold ScopeResolver.applyAdjustments
    rw [hk]
    dsimp only
    rw [herr]
  · intro cfg st capture e h
    exact ScopeResolver.store_of_range_error cfg st capture e h

/-- C7 witness: `startAt firstChild.startPosition` on a node whose child
lies outside the node's extent errors, both at the adjustment and out of
`store`. -/
theorem c7_witness :
    Adjustments.startAt unitCfg outParentNode "firstChild.startPosition"
      capStartAtOut.setProperties (rangeOfNode outParentNode) emptyResolverState
      = .error extentError ∧
    ScopeResolver.store unitCfg emptyResolverState capStartAtOut
      = .error extentError := by
  constructor
  · exact c7_extent_violation_raises.1 unitCfg outParentNode
      "firstChild.startPosition" capStartAtOut.setProperties
      (rangeOfNode outParentNode) emptyResolverState ⟨5, 0⟩ rfl rfl
  · exact c7_extent_violation_raises.2.2.2.2.2 unitCfg emptyResolverState
      capStartAtOut extentError rfl

/-- If every recognized adjustment key among the properties is a
non-numeric `offsetStart`/`offsetEnd`, the pipeline rejects with the state
untouched, provided at least one recognized key occurs. -/
theorem applyAdjustments_nonnumeric_offsets (cfg : ResolverConfig)
    (node : SyntaxNode) (props : Props) :
    ∀ (entries : List (String × String)) (range : CRange) (st : ResolverState),
      entries.any (fun kv => (ADJUSTMENTS kv.1).isSome) = true →
      (∀ kv ∈ entries, (ADJUSTMENTS kv.1).isSome = true →
         (kv.1 = "offsetStart" ∨ kv.1 = "offsetEnd") ∧ jsNumber kv.2 = none) →
      ScopeResolver.applyAdjustments cfg node props entries range st = .ok (none, st) := by
  intro entries
  induction entries with
  | nil =>
    intro range st hany _
    simp at hany
  | cons kv rest ih =>
    intro range st hany hall
    obtain ⟨key, value⟩ := kv
    unfold ScopeResolver.applyAdjustments
    cases hk : ADJUSTMENTS key with
    | none =>
      have hany' : rest.any (fun kv => (ADJUSTMENTS kv.1).isSome) = true := by
        simp only [List.any_cons, hk, Option.isSome_none, Bool.false_or] at hany
        exact hany
      exact ih range st hany'
        (fun kv hm hs => hall kv (List.mem_cons_of_mem _ hm) hs)
    | some adj =>
      have hkv := hall (key, value) (List.mem_cons_self _ _) (by rw [hk]; rfl)
      obtain ⟨hkey, hnum⟩ := hkv
      dsimp only
      rcases hkey with hkey | hkey
      · simp only at hkey
        subst hkey
        have hadjEq : adj = Adjustments.offsetStart := by
          have hfix : ADJUSTMENTS "offsetStart" = some Adjustments.offsetStart := rfl
          rw [hfix] at hk
          exact (Option.some.inj hk).symm
        subst hadjEq
        have hrun : Adjustments.offsetStart cfg node value props range st
            = .ok (none, st) := by
          unfold Adjustments.offsetStart
          rw [hnum]
        rw [hrun]
      · simp only at hkey
        subst hkey
        have hadjEq : adj = Adjustments.offsetEnd := by
          have hfix : ADJUSTMENTS "offsetEnd" = some Adjustments.offsetEnd := rfl
          rw [hfix] at hk
          exact (Option.some.inj hk).symm
        subst hadjEq
        have hrun : Adjustments.offsetEnd cfg node value props range st
            = .ok (none, st) := by
          unfold Adjustments.offsetEnd
          rw [hnum]
        rw [hrun]

/-- C8: a non-numeric `offsetStart`/`offsetEnd` value makes the adjustment
yield `null` without error, and a capture whose recognized adjustments are
all such directives is silently dropped: `store` returns false with the
state untouched and no error raised. -/
theorem c8_nonnumeric_offset_silent_drop :
    (∀ (cfg : ResolverConfig) (node : SyntaxNode) (value : String) (props : Props)
       (range : CRange) (st : ResolverState),
       jsNumber value = none →
       Adjustments.offsetStart cfg node value props range st = .ok (none, st)) ∧
    (∀ (cfg : ResolverConfig) (node : SyntaxNode) (value : String) (props : Props)
       (range : CRange) (st : ResolverState),
       jsNumber value = none →
       Adjustments.offsetEnd cfg node value props range st = .ok (none, st)) ∧
    (∀ (cfg : ResolverConfig) (st : ResolverState) (capture : Capture),
       ScopeResolver.adjustsCaptureRange capture = true →
       (∀ kv ∈ capture.setProperties, (ADJUSTMENTS kv.1).isSome = true →
          (kv.1 = "offsetStart" ∨ kv.1 = "offsetEnd") ∧ jsNumber kv.2 = none) →
       ScopeResolver.store cfg st capture = .ok (none, st)) := by
  refine ⟨?_, ?_, ?_⟩
  · intro cfg node value props range st h
    unfold Adjustments.offsetStart
    rw [h]
  · intro cfg node value props range st h
    unfold Adjustments.offsetEnd
    rw [h]
  · intro cfg st capture hadj hall
    have hany : capture.setProperties.any
        (fun kv => (ADJUSTMENTS kv.1).isSome) = true := by
      unfold ScopeResolver.adjustsCaptureRange at hadj
      dsimp only at hadj
      split at hadj
      · exact absurd hadj (by simp)
      · simpa using hadj
    have hdet : ScopeResolver.determineCaptureRange cfg st capture
        = .ok (none, st) := by
      unfold ScopeResolver.determineCaptureRange
      rw [hadj]
      rw [if_neg (by decide : ¬((!true) = true))]
      dsimp only
      rw [applyAdjustments_nonnumeric_offsets cfg capture.node
        capture.setProperties capture.setProperties _ st hany hall]
    exact ScopeResolver.store_of_range_none cfg st capture st hdet

/-- C8 witness: `offsetStart x` drops its capture silently; the adjustment
yields `null` and `store` returns false with the empty state unchanged. -/
theorem c8_witness :
    Adjustments.offsetStart unitCfg abcNode "x" capOffX.setProperties
      (rangeOfNode abcNode) emptyResolverState = .ok (none, emptyResolverState) ∧
    ScopeResolver.store unitCfg emptyResolverState capOffX
      = .ok (none, emptyResolverState) := by
  constructor
  · exact c8_nonnumeric_offset_silent_drop.1 unitCfg abcNode "x"
      capOffX.setProperties (rangeOfNode abcNode) emptyResolverState rfl
  · exact c8_nonnumeric_offset_silent_drop.2.2 unitCfg emptyResolverState
      capOffX rfl (by decide)
